import Mathlib

/-!
Verification of the ipthc response-pagination-and-parsing core.

The development shallowly embeds the two components of the core:
* the Response Parser (`Parse`, `ParseResult.HasMore`), transcribed from the
  Go parser (`parser.go`: `Parse`, `HasMore`, the `entriesRegex`,
  `nextPageRegex` and `ansiRegex` regular expressions), and
* the Paginating Fetcher (`queryWithPagination`, `makeRequest`), transcribed
  from the Go client (`queryWithPagination` with the link-following
  pagination loop, the 100-page safety cap and the first-page-metadata
  reconstruction).

Strings are modelled as Lean `String`/`List Char`; the three Go regular
expressions are implemented as explicit leftmost-match scanners with the
RE2 character classes spelled out.  The HTTP layer is modelled by an oracle
`net : String → FetchOutcome` mapping a request URL to its outcome.
-/

namespace Ipthc

/-- The character class trimmed by Go `strings.TrimSpace`
(`unicode.IsSpace`): ASCII whitespace, NEL, NBSP and the Unicode space
separators. -/
def goIsSpace (c : Char) : Bool :=
  let n := c.toNat
  n = 9 || n = 10 || n = 11 || n = 12 || n = 13 || n = 32 ||
  n = 0x85 || n = 0xA0 || n = 0x1680 ||
  (0x2000 ≤ n && n ≤ 0x200A) ||
  n = 0x2028 || n = 0x2029 || n = 0x202F || n = 0x205F || n = 0x3000

/-- The RE2 character class matched by the regex token for whitespace
(space, tab, newline, form feed, carriage return). -/
def reIsSpace (c : Char) : Bool :=
  let n := c.toNat
  n = 9 || n = 10 || n = 12 || n = 13 || n = 32

/-- Go `strings.TrimSpace` on a character list: drop `goIsSpace` characters
from both ends. -/
def trimGo (l : List Char) : List Char :=
  ((l.dropWhile goIsSpace).reverse.dropWhile goIsSpace).reverse

/-- Strip a literal pattern from the front of a character list, returning
the remainder on success. -/
def dropPfx : List Char → List Char → Option (List Char)
  | [], s => some s
  | _ :: _, [] => none
  | p :: ps, c :: cs => if c = p then dropPfx ps cs else none

/-- Numeric value of a digit string. -/
def digitsToNat (ds : List Char) : Nat :=
  ds.foldl (fun acc c => acc * 10 + (c.toNat - 48)) 0

/-- Go `strconv.Atoi` on an all-digit string with the error discarded:
the numeric value, saturated at the maximum 64-bit signed integer
(`strconv.ParseInt` returns the maximum magnitude on range error, and the
Go parser ignores the error). -/
def atoiGo (ds : List Char) : Nat :=
  min (digitsToNat ds) 9223372036854775807

/-- Match the entries regex (`;;Entries:`, optional regex whitespace, two
slash-separated digit groups) anchored at the head of the list, returning
the two captured digit strings. -/
def entriesAt (s : List Char) : Option (List Char × List Char) :=
  match dropPfx ";;Entries:".data s with
  | none => none
  | some s1 =>
    let s2 := s1.dropWhile reIsSpace
    let d1 := s2.takeWhile Char.isDigit
    if d1.isEmpty then none
    else
      match s2.drop d1.length with
      | '/' :: s3 =>
        let d2 := s3.takeWhile Char.isDigit
        if d2.isEmpty then none else some (d1, d2)
      | _ => none

/-- Leftmost match of the entries regex: Go
`entriesRegex.FindStringSubmatch`, tried at every start position from the
left. -/
def entriesFind : List Char → Option (List Char × List Char)
  | [] => none
  | c :: cs =>
    match entriesAt (c :: cs) with
    | some r => some r
    | none => entriesFind cs

/-- Match the URL part of the next-page regex (an `http://` or `https://`
scheme followed by at least one non-whitespace character, greedily
extended) anchored at the head of the list.  The optional `s` is tried
first, as the regex engine does. -/
def urlAt (s : List Char) : Option (List Char) :=
  match dropPfx "https://".data s with
  | some rest =>
    let tok := rest.takeWhile (fun c => !reIsSpace c)
    if tok.isEmpty then none else some ("https://".data ++ tok)
  | none =>
    match dropPfx "http://".data s with
    | some rest =>
      let tok := rest.takeWhile (fun c => !reIsSpace c)
      if tok.isEmpty then none else some ("http://".data ++ tok)
    | none => none

/-- The lazy gap of the next-page regex: scan forward for the first
position where a URL matches, never crossing a newline (regex dot does not
match a newline). -/
def findUrl : List Char → Option (List Char)
  | [] => none
  | c :: cs =>
    match urlAt (c :: cs) with
    | some u => some u
    | none => if c = '\n' then none else findUrl cs

/-- Leftmost match of the next-page regex (`;;Next Page:` followed, lazily,
by a captured URL): Go `nextPageRegex.FindStringSubmatch`. -/
def nextPageFind : List Char → Option (List Char)
  | [] => none
  | c :: cs =>
    match dropPfx ";;Next Page:".data (c :: cs) with
    | some s1 =>
      match findUrl s1 with
      | some u => some u
      | none => nextPageFind cs
    | none => nextPageFind cs

/-- Match one ANSI escape body (the part after the escape character): a
bracket, a run of digits and semicolons, and a final `m`.  Returns the
remainder after the sequence. -/
def ansiSeq (s : List Char) : Option (List Char) :=
  match s with
  | '[' :: r1 =>
    let run := r1.takeWhile (fun c => c.isDigit || c = ';')
    match r1.drop run.length with
    | 'm' :: r2 => some r2
    | _ => none
  | _ => none

/-- Worker for `ansiStrip`; the fuel argument (initially the length of the
list, which strictly bounds the number of steps) only makes the recursion
structural. -/
def ansiStripAux : Nat → List Char → List Char
  | 0, s => s
  | _ + 1, [] => []
  | f + 1, c :: cs =>
    if c = '\x1b' then
      match ansiSeq cs with
      | some rest => ansiStripAux f rest
      | none => c :: ansiStripAux f cs
    else c :: ansiStripAux f cs

/-- Go `ansiRegex.ReplaceAllString(s, "")`: delete every (leftmost,
non-overlapping) ANSI color escape sequence. -/
def ansiStrip (s : List Char) : List Char :=
  ansiStripAux s.length s

/-- Go `strings.Split(body, "\n")` on a character list. -/
def splitLines : List Char → List (List Char)
  | [] => [[]]
  | c :: cs =>
    if c = '\n' then [] :: splitLines cs
    else
      match splitLines cs with
      | [] => [[c]]
      | h :: t => (c :: h) :: t

/-- The Go `ParseResult` struct: data lines, the two entries counters and
the next-page URL. -/
structure ParseResult where
  Data : List String
  CurrentCount : Nat
  TotalCount : Nat
  NextPageURL : String
deriving DecidableEq

/-- Go `(*ParseResult).HasMore`: a present next-page URL wins; otherwise
the 0/0 sentinel forces `false`; otherwise compare the counters. -/
def ParseResult.HasMore (r : ParseResult) : Bool :=
  if r.NextPageURL ≠ "" then true
  else if r.CurrentCount = 0 ∧ r.TotalCount = 0 then false
  else decide (r.CurrentCount < r.TotalCount)

/-- The body of the Go parse loop for one line: trim, drop empties, scan
comment lines for the two regexes, append cleaned data lines. -/
def stepParse (r : ParseResult) (line : List Char) : ParseResult :=
  let trimmed := trimGo line
  if trimmed = [] then r
  else if trimmed.head? = some ';' then
    let cleaned := ansiStrip trimmed
    let r1 :=
      match entriesFind cleaned with
      | some (d1, d2) =>
        { r with CurrentCount := atoiGo d1, TotalCount := atoiGo d2 }
      | none => r
    match nextPageFind cleaned with
    | some u => { r1 with NextPageURL := String.mk u }
    | none => r1
  else { r with Data := r.Data ++ [String.mk (ansiStrip trimmed)] }

/-- The Go parse loop over all lines, starting from the zero-initialised
result. -/
def parseLines (ls : List (List Char)) : ParseResult :=
  ls.foldl stepParse ⟨[], 0, 0, ""⟩

/-- Go `(*ResponseParser).Parse`: split on newlines and run the line
loop.  (The verbose side-channel echo of comment lines is pure output and
is not modelled.) -/
def Parse (body : String) : ParseResult :=
  parseLines (splitLines body.data)

/-!
Spec-level observers on a payload, used to state payload-level properties:
the final value of the entries counters (last matching comment line wins,
as each match overwrites the previous one in the parse loop), and the
final next-page URL.  They replay exactly the comment-line classification
and regex scans of `stepParse`.
-/

/-- The entries counters contributed by a single line: present exactly
when the line is a non-empty comment line whose cleaned form matches the
entries regex. -/
def entriesLine (line : List Char) : Option (Nat × Nat) :=
  let t := trimGo line
  if t = [] then none
  else if t.head? = some ';' then
    match entriesFind (ansiStrip t) with
    | some (d1, d2) => some (atoiGo d1, atoiGo d2)
    | none => none
  else none

/-- The last entries match over a list of lines (later lines override
earlier ones). -/
def entriesScan : List (List Char) → Option (Nat × Nat)
  | [] => none
  | l :: ls =>
    match entriesScan ls with
    | some p => some p
    | none => entriesLine l

/-- The next-page URL contributed by a single line. -/
def linkLine (line : List Char) : Option (List Char) :=
  let t := trimGo line
  if t = [] then none
  else if t.head? = some ';' then nextPageFind (ansiStrip t)
  else none

/-- The last next-page match over a list of lines. -/
def linkScan : List (List Char) → Option (List Char)
  | [] => none
  | l :: ls =>
    match linkScan ls with
    | some u => some u
    | none => linkLine l

/-- The data line contributed by a single payload line: the trimmed then
ANSI-stripped form, present exactly when the line is non-empty after
trimming and its first non-whitespace character is not the comment
marker. -/
def dataLineOf (line : List Char) : Option String :=
  let t := trimGo line
  if t = [] then none
  else if t.head? = some ';' then none
  else some (String.mk (ansiStrip t))

/-!  The Paginating Fetcher, transcribed from the Go client. -/

/-- Outcome of one HTTP GET, as seen by `makeRequest`: either a
transport-level failure carrying the underlying error text, or a response
with a status code, a status line, an optional body-read failure and a
body. -/
inductive FetchOutcome where
  | transportErr : String → FetchOutcome
  | httpResp : Nat → String → Option String → String → FetchOutcome
deriving DecidableEq

/-- Go `(*APIClient).makeRequest`: transport failures and non-200 statuses
and body-read failures become errors with the Go format strings; otherwise
the body is returned.  (The rate-limiting sleep is pure timing and is not
modelled.) -/
def makeRequest (o : FetchOutcome) : Except String String :=
  match o with
  | .transportErr m => .error ("HTTP request failed: " ++ m)
  | .httpResp code status readErr body =>
    if code ≠ 200 then .error ("HTTP " ++ toString code ++ ": " ++ status)
    else
      match readErr with
      | some m => .error ("failed to read response: " ++ m)
      | none => .ok body

/-- The initial request URL: base URL, endpoint path and, when the
caller-specified limit is positive, the size query parameter. -/
def buildURL (baseURL endpoint : String) (limit : Int) : String :=
  if limit > 0 then baseURL ++ endpoint ++ "?l=" ++ toString limit
  else baseURL ++ endpoint

/-- Concatenation of a list of character lists. -/
def joinAll : List (List Char) → List Char
  | [] => []
  | l :: ls => l ++ joinAll ls

/-- The reconstruction step of `queryWithPagination`: the first page's
comment lines (original, untrimmed form), each followed by a newline, then
every collected data line, each followed by a newline. -/
def reconstruct (body : String) (allData : List String) : String :=
  let lines := splitLines body.data
  let meta := lines.filter (fun l => (trimGo l).head? = some ';')
  String.mk (joinAll (meta.map (fun l => l ++ ['\n'])) ++
             joinAll (allData.map (fun d => d.data ++ ['\n'])))

/-- The pagination loop of `queryWithPagination`.  The fuel argument is
the number of page fetches still allowed by the 100-page safety cap: the
Go loop enters with `pageCount = 1` and breaks once `pageCount` reaches
100, so it performs at most 99 further fetches; fuel `f` corresponds to
`pageCount = 100 - f`.  Returns the accumulated data lines and the list of
URLs fetched, in order. -/
def pagLoop (net : String → FetchOutcome) :
    Nat → List String → String → List String → List String × List String
  | 0, allData, _, log => (allData, log)
  | f + 1, allData, nextURL, log =>
    if nextURL = "" then (allData, log)
    else
      match makeRequest (net nextURL) with
      | .error _ => (allData, log ++ [nextURL])
      | .ok pageBody =>
        let pr := Parse pageBody
        pagLoop net f (allData ++ pr.Data) pr.NextPageURL (log ++ [nextURL])

/-- Result of one whole fetch operation: the returned value (assembled
body or error) plus the list of URLs requested, in order. -/
structure QueryResult where
  result : Except String String
  requests : List String

/-- Go `(*APIClient).queryWithPagination` over a network oracle `net`:
initial request, first-page parse, the caller-limit and `HasMore` early
returns, the link-following pagination loop, and the reconstruction of the
combined response. -/
def queryWithPagination (net : String → FetchOutcome) (baseURL : String)
    (limit : Int) (endpoint : String) : QueryResult :=
  let url := buildURL baseURL endpoint limit
  match makeRequest (net url) with
  | .error e => ⟨.error e, [url]⟩
  | .ok body =>
    let res := Parse body
    if limit > 0 then ⟨.ok body, [url]⟩
    else if res.HasMore then
      let p := pagLoop net 99 res.Data res.NextPageURL []
      ⟨.ok (reconstruct body p.1), url :: p.2⟩
    else ⟨.ok body, [url]⟩

/-- The body carried by a successful result, if any. -/
def okBody (q : QueryResult) : Option String :=
  match q.result with
  | .ok s => some s
  | .error _ => none

/-! Concrete network oracles used by the witnesses and counterexamples. -/

/-- First page of the continuation-failure scenario: 2 of 10 entries and a
next-page link. -/
def pageC1 : String := ";;Entries: 2/10\n;;Next Page: http://b/p2\na1.x\na2.x"

/-- Network for the continuation-failure scenario: `pageC1` on the query
URL and a transport failure on every other URL. -/
def net1 : String → FetchOutcome := fun u =>
  if u = "http://b/sb/x" then .httpResp 200 "200 OK" none pageC1
  else .transportErr "connection refused"

/-- First page of the no-link pagination scenario: 2 of 10 entries and no
next-page link. -/
def pageC2 : String := ";;Entries: 2/10\nd1.x\nd2.x"

/-- Network for the no-link pagination scenario: `pageC2` on the query
URL; every other URL would answer with the full ten entries. -/
def cnet2 : String → FetchOutcome := fun u =>
  if u = "http://b/sb/x" then .httpResp 200 "200 OK" none pageC2
  else
    .httpResp 200 "200 OK" none
      ";;Entries: 10/10\nd1.x\nd2.x\nd3.x\nd4.x\nd5.x\nd6.x\nd7.x\nd8.x\nd9.x\nd10.x"

/-- Network answering every request with an HTTP 500. -/
def net5 : String → FetchOutcome := fun _ =>
  .httpResp 500 "500 Internal Server Error" none ""

/-- Network answering every request with a page that still has more
results available. -/
def net6 : String → FetchOutcome := fun _ =>
  .httpResp 200 "200 OK" none pageC2

/-- A page that links to a further page. -/
def pageC7 : String := ";;Next Page: http://b/p\nd.x"

/-- Network answering every request with `pageC7`, so that pagination
never ends on its own. -/
def net7 : String → FetchOutcome := fun _ =>
  .httpResp 200 "200 OK" none pageC7

/-- First page of the re-parse counterexample: 1 of 3 entries and a
next-page link. -/
def pageC8a : String := ";;Entries: 1/3\n;;Next Page: http://b/p2\na.x"

/-- Second page of the re-parse counterexample: a line that is nothing but
an ANSI color escape, so its cleaned data line is empty. -/
def pageC8b : String := "\x1b[31m\nb.x"

/-- Network for the re-parse counterexample. -/
def netC8 : String → FetchOutcome := fun u =>
  if u = "http://b/sb/x" then .httpResp 200 "200 OK" none pageC8a
  else if u = "http://b/p2" then .httpResp 200 "200 OK" none pageC8b
  else .transportErr "no route"

/-- Scratch network: two pages linked by a next-page URL. -/
def scratchNet : String → FetchOutcome := fun u =>
  if u = "http://b/sb/x" then
    .httpResp 200 "200 OK" none ";;Entries: 2/4\n;;Next Page: http://b/p2\na1.x\na2.x"
  else if u = "http://b/p2" then
    .httpResp 200 "200 OK" none ";;Entries: 4/4\na3.x\na4.x"
  else .transportErr "boom"

example : (Parse ";;Entries: 4/12\nsegfault.net\nadm.segfault.net\nlookup.segfault.net\n\nlsd.segfault.net").Data
    = ["segfault.net", "adm.segfault.net", "lookup.segfault.net", "lsd.segfault.net"] := by decide

example : (Parse ";;Entries: 4/12\nx.y").CurrentCount = 4 := by decide

example : (Parse ";;Entries: 4/12\nx.y").TotalCount = 12 := by decide

example : (Parse ";;Entries: 4/12\nx.y").HasMore = true := by decide

example : (Parse ";;Entries: 12/12\nx.y").HasMore = false := by decide

example : (Parse "").HasMore = false := by decide

example : (Parse ";;Next Page: see http://a.b/p2 for more").NextPageURL = "http://a.b/p2" := by decide

example : (Parse "\x1b[31mred.example\x1b[0m").Data = ["red.example"] := by decide

example : (queryWithPagination scratchNet "http://b" 0 "/sb/x").requests
    = ["http://b/sb/x", "http://b/p2"] := by decide

example : okBody (queryWithPagination scratchNet "http://b" 0 "/sb/x")
    = some ";;Entries: 2/4\n;;Next Page: http://b/p2\na1.x\na2.x\na3.x\na4.x\n" := by decide

/-! Characterization of one parse-loop step in terms of the per-line
observers. -/

theorem stepParse_Data (r : ParseResult) (l : List Char) :
    (stepParse r l).Data = r.Data ++ (dataLineOf l).toList := by
  simp only [stepParse, dataLineOf]
  by_cases h1 : trimGo l = []
  · simp [h1]
  · by_cases h2 : (trimGo l).head? = some ';'
    · simp only [h1, h2, if_true, if_false, if_neg, if_pos]
      cases h3 : entriesFind (ansiStrip (trimGo l)) with
      | none =>
        cases h4 : nextPageFind (ansiStrip (trimGo l)) <;> simp [h1, h2, h3, h4]
      | some p =>
        obtain ⟨d1, d2⟩ := p
        cases h4 : nextPageFind (ansiStrip (trimGo l)) <;> simp [h1, h2, h3, h4]
    · simp [h1, h2]

theorem stepParse_cur (r : ParseResult) (l : List Char) :
    (stepParse r l).CurrentCount =
      (match entriesLine l with | some p => p.1 | none => r.CurrentCount) := by
  simp only [stepParse, entriesLine]
  by_cases h1 : trimGo l = []
  · simp [h1]
  · by_cases h2 : (trimGo l).head? = some ';'
    · cases h3 : entriesFind (ansiStrip (trimGo l)) with
      | none =>
        cases h4 : nextPageFind (ansiStrip (trimGo l)) <;> simp [h1, h2, h3, h4]
      | some p =>
        obtain ⟨d1, d2⟩ := p
        cases h4 : nextPageFind (ansiStrip (trimGo l)) <;> simp [h1, h2, h3, h4]
    · simp [h1, h2]

theorem stepParse_tot (r : ParseResult) (l : List Char) :
    (stepParse r l).TotalCount =
      (match entriesLine l with | some p => p.2 | none => r.TotalCount) := by
  simp only [stepParse, entriesLine]
  by_cases h1 : trimGo l = []
  · simp [h1]
  · by_cases h2 : (trimGo l).head? = some ';'
    · cases h3 : entriesFind (ansiStrip (trimGo l)) with
      | none =>
        cases h4 : nextPageFind (ansiStrip (trimGo l)) <;> simp [h1, h2, h3, h4]
      | some p =>
        obtain ⟨d1, d2⟩ := p
        cases h4 : nextPageFind (ansiStrip (trimGo l)) <;> simp [h1, h2, h3, h4]
    · simp [h1, h2]

theorem stepParse_link (r : ParseResult) (l : List Char) :
    (stepParse r l).NextPageURL =
      (match linkLine l with | some u => String.mk u | none => r.NextPageURL) := by
  simp only [stepParse, linkLine]
  by_cases h1 : trimGo l = []
  · simp [h1]
  · by_cases h2 : (trimGo l).head? = some ';'
    · cases h3 : entriesFind (ansiStrip (trimGo l)) with
      | none =>
        cases h4 : nextPageFind (ansiStrip (trimGo l)) <;> simp [h1, h2, h3, h4]
      | some p =>
        obtain ⟨d1, d2⟩ := p
        cases h4 : nextPageFind (ansiStrip (trimGo l)) <;> simp [h1, h2, h3, h4]
    · simp [h1, h2]

theorem entriesScan_cons (l : List Char) (ls : List (List Char)) :
    entriesScan (l :: ls) =
      (match entriesScan ls with | some p => some p | none => entriesLine l) := rfl

theorem linkScan_cons (l : List Char) (ls : List (List Char)) :
    linkScan (l :: ls) =
      (match linkScan ls with | some u => some u | none => linkLine l) := rfl

/-- Master characterization of the parse loop: running the fold from any
start state appends exactly the per-line data contributions, and the
counters and link fields hold the last per-line match, falling back to the
start state. -/
theorem foldl_stepParse (ls : List (List Char)) : ∀ r : ParseResult,
    (ls.foldl stepParse r).Data = r.Data ++ ls.filterMap dataLineOf ∧
    (ls.foldl stepParse r).CurrentCount =
      (match entriesScan ls with | some p => p.1 | none => r.CurrentCount) ∧
    (ls.foldl stepParse r).TotalCount =
      (match entriesScan ls with | some p => p.2 | none => r.TotalCount) ∧
    (ls.foldl stepParse r).NextPageURL =
      (match linkScan ls with | some u => String.mk u | none => r.NextPageURL) := by
  induction ls with
  | nil => intro r; simp [entriesScan, linkScan]
  | cons l ls ih =>
    intro r
    obtain ⟨ihD, ihC, ihT, ihL⟩ := ih (stepParse r l)
    refine ⟨?_, ?_, ?_, ?_⟩
    · rw [List.foldl_cons, ihD, stepParse_Data]
      cases h : dataLineOf l <;> simp [h, List.filterMap_cons]
    · rw [List.foldl_cons, ihC, entriesScan_cons]
      cases hs : entriesScan ls with
      | some p => simp
      | none => rw [stepParse_cur]
    · rw [List.foldl_cons, ihT, entriesScan_cons]
      cases hs : entriesScan ls with
      | some p => simp
      | none => rw [stepParse_tot]
    · rw [List.foldl_cons, ihL, linkScan_cons]
      cases hs : linkScan ls with
      | some u => simp
      | none => rw [stepParse_link]

theorem Parse_Data (body : String) :
    (Parse body).Data = (splitLines body.data).filterMap dataLineOf := by
  have h := (foldl_stepParse (splitLines body.data) ⟨[], 0, 0, ""⟩).1
  simpa [Parse, parseLines] using h

theorem Parse_cur (body : String) :
    (Parse body).CurrentCount =
      (match entriesScan (splitLines body.data) with | some p => p.1 | none => 0) := by
  have h := (foldl_stepParse (splitLines body.data) ⟨[], 0, 0, ""⟩).2.1
  simpa [Parse, parseLines] using h

theorem Parse_tot (body : String) :
    (Parse body).TotalCount =
      (match entriesScan (splitLines body.data) with | some p => p.2 | none => 0) := by
  have h := (foldl_stepParse (splitLines body.data) ⟨[], 0, 0, ""⟩).2.2.1
  simpa [Parse, parseLines] using h

theorem Parse_link (body : String) :
    (Parse body).NextPageURL =
      (match linkScan (splitLines body.data) with | some u => String.mk u | none => "") := by
  have h := (foldl_stepParse (splitLines body.data) ⟨[], 0, 0, ""⟩).2.2.2
  simpa [Parse, parseLines] using h

/-- Boolean characterization of `HasMore`. -/
theorem hasMore_iff (r : ParseResult) :
    r.HasMore = true ↔
      (r.NextPageURL ≠ "" ∨ (r.NextPageURL = "" ∧ r.CurrentCount < r.TotalCount)) := by
  unfold ParseResult.HasMore
  by_cases h : r.NextPageURL = ""
  · by_cases h0 : r.CurrentCount = 0 ∧ r.TotalCount = 0
    · simp [h, h0]
    · simp [h, h0]
  · simp [h]

/-! Bookkeeping lemmas for the pagination loop. -/

theorem pagLoop_zero (net : String → FetchOutcome) (a : List String)
    (u : String) (log : List String) : pagLoop net 0 a u log = (a, log) := rfl

theorem pagLoop_succ (net : String → FetchOutcome) (f : Nat) (a : List String)
    (u : String) (log : List String) :
    pagLoop net (f + 1) a u log =
      (if u = "" then (a, log)
       else
        match makeRequest (net u) with
        | .error _ => (a, log ++ [u])
        | .ok pageBody =>
          pagLoop net f (a ++ (Parse pageBody).Data) (Parse pageBody).NextPageURL
            (log ++ [u])) := rfl

/-- The loop performs at most as many further fetches as it has fuel. -/
theorem pagLoop_log_len (net : String → FetchOutcome) :
    ∀ (f : Nat) (a : List String) (u : String) (log : List String),
      ((pagLoop net f a u log).2).length ≤ log.length + f := by
  intro f
  induction f with
  | zero => intro a u log; simp [pagLoop_zero]
  | succ f ih =>
    intro a u log
    rw [pagLoop_succ]
    by_cases hu : u = ""
    · simp [hu]
    · cases hm : makeRequest (net u) with
      | error e => simp [hu, hm]
      | ok b =>
        simp only [hu, hm, if_neg, if_false]
        have := ih (a ++ (Parse b).Data) (Parse b).NextPageURL (log ++ [u])
        simp at this ⊢
        omega

/-- The loop only ever appends to its request log. -/
theorem pagLoop_log_ext (net : String → FetchOutcome) :
    ∀ (f : Nat) (a : List String) (u : String) (log : List String),
      ∃ t, (pagLoop net f a u log).2 = log ++ t := by
  intro f
  induction f with
  | zero => intro a u log; exact ⟨[], by simp [pagLoop_zero]⟩
  | succ f ih =>
    intro a u log
    rw [pagLoop_succ]
    by_cases hu : u = ""
    · exact ⟨[], by simp [hu]⟩
    · cases hm : makeRequest (net u) with
      | error e => exact ⟨[u], by simp [hu, hm]⟩
      | ok b =>
        obtain ⟨t, ht⟩ := ih (a ++ (Parse b).Data) (Parse b).NextPageURL (log ++ [u])
        refine ⟨[u] ++ t, ?_⟩
        simp only [hu, hm, if_neg, if_false]
        simp [ht]

/-! Lemmas about `splitLines`, `joinAll` and `reconstruct`, used for the
re-parse property. -/

theorem splitLines_ne_nil : ∀ cs : List Char, splitLines cs ≠ [] := by
  intro cs
  induction cs with
  | nil => simp [splitLines]
  | cons c cs ih =>
    by_cases hc : c = '\n'
    · simp [splitLines, hc]
    · simp only [splitLines, hc, if_neg, if_false]
      cases hsp : splitLines cs <;> simp

theorem splitLines_append_newline (xs rest : List Char) (h : '\n' ∉ xs) :
    splitLines (xs ++ '\n' :: rest) = xs :: splitLines rest := by
  induction xs with
  | nil => simp [splitLines]
  | cons c cs ih =>
    have hc : c ≠ '\n' := fun e => h (e ▸ List.mem_cons_self c cs)
    have h' : '\n' ∉ cs := fun m => h (List.mem_cons_of_mem c m)
    simp [splitLines, hc, ih h']

theorem mem_splitLines_no_newline :
    ∀ (cs : List Char) (l : List Char), l ∈ splitLines cs → '\n' ∉ l := by
  intro cs
  induction cs with
  | nil =>
    intro l hl
    simp [splitLines] at hl
    simp [hl]
  | cons c cs ih =>
    intro l hl
    by_cases hc : c = '\n'
    · simp [splitLines, hc] at hl
      rcases hl with hl | hl
      · simp [hl]
      · exact ih l hl
    · simp only [splitLines, hc, if_neg, if_false] at hl
      cases hsp : splitLines cs with
      | nil => exact absurd hsp (splitLines_ne_nil cs)
      | cons hd tl =>
        rw [hsp] at hl
        simp at hl
        rcases hl with hl | hl
        · subst hl
          intro hm
          rcases List.mem_cons.mp hm with hm | hm
          · exact hc hm.symm
          · exact ih hd (hsp ▸ List.mem_cons_self hd tl) hm
        · exact ih l (hsp ▸ List.mem_cons_of_mem hd hl)

theorem joinAll_append (a b : List (List Char)) :
    joinAll (a ++ b) = joinAll a ++ joinAll b := by
  induction a with
  | nil => simp [joinAll]
  | cons x xs ih => simp [joinAll, ih]

theorem splitLines_joinAll (chunks : List (List Char))
    (h : ∀ l ∈ chunks, '\n' ∉ l) :
    splitLines (joinAll (chunks.map (fun l => l ++ ['\n']))) = chunks ++ [[]] := by
  induction chunks with
  | nil => simp [joinAll, splitLines]
  | cons c cs ih =>
    simp only [List.map_cons, joinAll, List.append_assoc, List.singleton_append]
    rw [splitLines_append_newline _ _ (h c (List.mem_cons_self c cs)),
        ih (fun l m => h l (List.mem_cons_of_mem c m))]
    simp

theorem filterMap_dataLineOf_none (L : List (List Char))
    (h : ∀ l ∈ L, (trimGo l).head? = some ';') :
    L.filterMap dataLineOf = [] := by
  induction L with
  | nil => simp
  | cons l ls ih =>
    have hl := h l (List.mem_cons_self l ls)
    have hne : trimGo l ≠ [] := by
      intro e
      rw [e] at hl
      simp at hl
    have : dataLineOf l = none := by simp [dataLineOf, hne, hl]
    simp [List.filterMap_cons, this, ih (fun x m => h x (List.mem_cons_of_mem l m))]

theorem filterMap_dataLineOf_lift (L : List String)
    (h : ∀ d ∈ L, dataLineOf d.data = some d) :
    (L.map String.data).filterMap dataLineOf = L := by
  induction L with
  | nil => simp
  | cons d ds ih =>
    simp [List.filterMap_cons, h d (List.mem_cons_self d ds),
      ih (fun x m => h x (List.mem_cons_of_mem d m))]

example : String.mk "abc".data = "abc" := rfl

/-- Re-parsing the reconstructed output recovers exactly the accumulated
data lines, provided each accumulated line is newline-free, already
trimmed, non-empty, not comment-marked, and fixed by ANSI stripping. -/
theorem reparse_data (firstBody : String) (allData : List String)
    (h : ∀ d ∈ allData, ('\n' ∉ d.data) ∧ trimGo d.data = d.data ∧
      d.data ≠ [] ∧ d.data.head? ≠ some ';' ∧ ansiStrip d.data = d.data) :
    (Parse (reconstruct firstBody allData)).Data = allData := by
  rw [Parse_Data]
  have hdata : (reconstruct firstBody allData).data =
      joinAll ((((splitLines firstBody.data).filter
          (fun l => (trimGo l).head? = some ';')) ++ allData.map String.data).map
        (fun l => l ++ ['\n'])) := by
    simp only [reconstruct, List.map_append, joinAll_append, List.map_map]
    rfl
  rw [hdata, splitLines_joinAll]
  · rw [List.append_assoc, List.filterMap_append, List.filterMap_append]
    have hmeta : ((splitLines firstBody.data).filter
        (fun l => (trimGo l).head? = some ';')).filterMap dataLineOf = [] := by
      apply filterMap_dataLineOf_none
      intro l hl
      have := (List.mem_filter.mp hl).2
      simpa using this
    have hchunks : (allData.map String.data).filterMap dataLineOf = allData := by
      apply filterMap_dataLineOf_lift
      intro d hd
      obtain ⟨h1, h2, h3, h4, h5⟩ := h d hd
      simp only [dataLineOf, h2]
      rw [if_neg h3, if_neg h4]
      rw [h5]
    rw [hmeta, hchunks]
    simp [dataLineOf, trimGo]
  · intro l hl
    rcases List.mem_append.mp hl with hl | hl
    · exact mem_splitLines_no_newline firstBody.data l (List.mem_filter.mp hl).1
    · obtain ⟨d, hd, rfl⟩ := List.mem_map.mp hl
      exact (h d hd).1

/-! Unfolding lemmas for the four control-flow branches of
`queryWithPagination`. -/

theorem queryWP_err (net : String → FetchOutcome) (baseURL : String)
    (limit : Int) (endpoint : String) (e : String)
    (he : makeRequest (net (buildURL baseURL endpoint limit)) = .error e) :
    queryWithPagination net baseURL limit endpoint =
      ⟨.error e, [buildURL baseURL endpoint limit]⟩ := by
  simp [queryWithPagination, he]

theorem queryWP_limit (net : String → FetchOutcome) (baseURL : String)
    (limit : Int) (endpoint : String) (body : String)
    (hl : limit > 0)
    (hok : makeRequest (net (buildURL baseURL endpoint limit)) = .ok body) :
    queryWithPagination net baseURL limit endpoint =
      ⟨.ok body, [buildURL baseURL endpoint limit]⟩ := by
  simp [queryWithPagination, hok, hl]

theorem queryWP_nomore (net : String → FetchOutcome) (baseURL : String)
    (limit : Int) (endpoint : String) (body : String)
    (hl : ¬ limit > 0)
    (hok : makeRequest (net (buildURL baseURL endpoint limit)) = .ok body)
    (hm : (Parse body).HasMore = false) :
    queryWithPagination net baseURL limit endpoint =
      ⟨.ok body, [buildURL baseURL endpoint limit]⟩ := by
  simp [queryWithPagination, hok, hl, hm]

theorem queryWP_more (net : String → FetchOutcome) (baseURL : String)
    (limit : Int) (endpoint : String) (body : String)
    (hl : ¬ limit > 0)
    (hok : makeRequest (net (buildURL baseURL endpoint limit)) = .ok body)
    (hm : (Parse body).HasMore = true) :
    queryWithPagination net baseURL limit endpoint =
      ⟨.ok (reconstruct body
          (pagLoop net 99 (Parse body).Data (Parse body).NextPageURL []).1),
        buildURL baseURL endpoint limit ::
          (pagLoop net 99 (Parse body).Data (Parse body).NextPageURL []).2⟩ := by
  simp [queryWithPagination, hok, hl, hm]

/-! Claim theorems. -/

/-- C4: for every payload string, `Parse` returns data lines equal, in
payload order, to the whitespace-trimmed then ANSI-escape-stripped forms
of exactly those lines that are non-empty after trimming and whose first
non-whitespace character is not the comment marker; trimmed-empty lines
contribute nothing and comment lines never appear in the data. -/
theorem C4_data_lines (body : String) :
    (Parse body).Data =
      (splitLines body.data).filterMap (fun line =>
        let t := trimGo line
        if t = [] then none
        else if t.head? = some ';' then none
        else some (String.mk (ansiStrip t))) :=
  Parse_Data body

/-- C3 fails as stated: the sub-claim that any payload whose entries line
reads `a/a` has `HasMore = false` is refuted by a payload that also
carries a next-page link — the link check precedes the counter
comparison, so `HasMore` is true. -/
theorem C3_counterexample :
    entriesScan (splitLines (";;Entries: 3/3\n;;Next Page: more at http://e.x/p2" : String).data)
      = some (3, 3) ∧
    (Parse ";;Entries: 3/3\n;;Next Page: more at http://e.x/p2").HasMore = true :=
  ⟨by decide, by decide⟩

/-- C3 (amended): `HasMore` is true exactly when a next-page link is
present, or no link is present and `currentCount < totalCount`; with both
counters 0 and no link it is false.  Consequently, for payloads *with no
next-page link*: a last entries match `a/a` gives `HasMore = false`, a
last entries match `a/b` with `a < b` gives `HasMore = true`, and no
entries match at all gives `HasMore = false`. -/
theorem C3_hasMore_characterization :
    (∀ r : ParseResult,
      r.HasMore = true ↔
        (r.NextPageURL ≠ "" ∨ (r.NextPageURL = "" ∧ r.CurrentCount < r.TotalCount))) ∧
    (∀ r : ParseResult, r.NextPageURL = "" → r.CurrentCount = 0 → r.TotalCount = 0 →
      r.HasMore = false) ∧
    (∀ (body : String) (a : Nat),
      entriesScan (splitLines body.data) = some (a, a) →
      linkScan (splitLines body.data) = none →
      (Parse body).HasMore = false) ∧
    (∀ (body : String) (a b : Nat),
      entriesScan (splitLines body.data) = some (a, b) → a < b →
      linkScan (splitLines body.data) = none →
      (Parse body).HasMore = true) ∧
    (∀ body : String,
      entriesScan (splitLines body.data) = none →
      linkScan (splitLines body.data) = none →
      (Parse body).HasMore = false) := by
  have hzero : ∀ r : ParseResult, r.NextPageURL = "" → r.CurrentCount = 0 →
      r.TotalCount = 0 → r.HasMore = false := by
    intro r h1 h2 h3
    simp [ParseResult.HasMore, h1, h2, h3]
  refine ⟨hasMore_iff, hzero, ?_, ?_, ?_⟩
  · intro body a he hlk
    have hc := Parse_cur body
    have ht := Parse_tot body
    have hl := Parse_link body
    rw [he] at hc ht
    rw [hlk] at hl
    simp [ParseResult.HasMore, hc, ht, hl]
  · intro body a b he hab hlk
    have hc := Parse_cur body
    have ht := Parse_tot body
    have hl := Parse_link body
    rw [he] at hc ht
    rw [hlk] at hl
    exact (hasMore_iff (Parse body)).mpr (Or.inr ⟨hl, by rw [hc, ht]; exact hab⟩)
  · intro body he hlk
    have hc := Parse_cur body
    have ht := Parse_tot body
    have hl := Parse_link body
    rw [he] at hc ht
    rw [hlk] at hl
    exact hzero (Parse body) hl hc ht

/-- Witness for C3 (amended): the no-link consequences at concrete
payloads with entries lines 4/4 and 2/10. -/
theorem C3_witness :
    (Parse ";;Entries: 4/4\nfoo.x").HasMore = false ∧
    (Parse ";;Entries: 2/10\nfoo.x").HasMore = true :=
  ⟨C3_hasMore_characterization.2.2.1 ";;Entries: 4/4\nfoo.x" 4 (by decide) (by decide),
   C3_hasMore_characterization.2.2.2.1 ";;Entries: 2/10\nfoo.x" 2 10
     (by decide) (by decide) (by decide)⟩

/-- C9: `Parse` is total by construction (it is a Lean function on all of
`String`); when no line matches the entries pattern both counters are the
sentinel 0, when no line matches the next-page pattern the link is empty,
and with neither match `HasMore` is false. -/
theorem C9_parse_defaults (body : String) :
    (entriesScan (splitLines body.data) = none →
      (Parse body).CurrentCount = 0 ∧ (Parse body).TotalCount = 0) ∧
    (linkScan (splitLines body.data) = none → (Parse body).NextPageURL = "") ∧
    (entriesScan (splitLines body.data) = none →
      linkScan (splitLines body.data) = none →
      (Parse body).HasMore = false) := by
  refine ⟨?_, ?_, ?_⟩
  · intro he
    have hc := Parse_cur body
    have ht := Parse_tot body
    rw [he] at hc ht
    exact ⟨hc, ht⟩
  · intro hlk
    have hl := Parse_link body
    rw [hlk] at hl
    exact hl
  · intro he hlk
    have hc := Parse_cur body
    have ht := Parse_tot body
    have hl := Parse_link body
    rw [he] at hc ht
    rw [hlk] at hl
    simp [ParseResult.HasMore, hc, ht, hl]

/-- Witness for C9: the empty payload and a metadata-free payload parse
with sentinel counters, empty link and `HasMore = false`. -/
theorem C9_witness :
    ((Parse "").CurrentCount = 0 ∧ (Parse "").TotalCount = 0) ∧
    (Parse "just-data\n\nmore-data").NextPageURL = "" ∧
    (Parse "just-data\n\nmore-data").HasMore = false :=
  ⟨(C9_parse_defaults "").1 (by decide),
   (C9_parse_defaults "just-data\n\nmore-data").2.1 (by decide),
   (C9_parse_defaults "just-data\n\nmore-data").2.2 (by decide) (by decide)⟩

/-- C10: the next-page-link check takes precedence over the sentinel-zero
rule — a non-empty link forces `HasMore = true` whatever the counters. -/
theorem C10_link_precedence (r : ParseResult) (h : r.NextPageURL ≠ "") :
    r.HasMore = true := by
  simp [ParseResult.HasMore, h]

/-- Witness for C10: a payload carrying only a next-page link parses with
both counters 0 yet `HasMore = true`. -/
theorem C10_witness :
    (Parse ";;Next Page: http://e.x/p2").CurrentCount = 0 ∧
    (Parse ";;Next Page: http://e.x/p2").TotalCount = 0 ∧
    (Parse ";;Next Page: http://e.x/p2").HasMore = true :=
  ⟨by decide, by decide,
   C10_link_precedence (Parse ";;Next Page: http://e.x/p2") (by decide)⟩

/-- C8 fails as stated: a second page whose only content line is an ANSI
color escape contributes an empty accumulated data line, which the
reconstruction serialises as a blank line and a re-parse then drops — the
re-parsed data lines differ from the accumulated ones. -/
theorem C8_counterexample :
    okBody (queryWithPagination netC8 "http://b" 0 "/sb/x")
      = some ";;Entries: 1/3\n;;Next Page: http://b/p2\na.x\n\nb.x\n" ∧
    (Parse pageC8a).Data ++ (Parse pageC8b).Data = ["a.x", "", "b.x"] ∧
    (Parse ";;Entries: 1/3\n;;Next Page: http://b/p2\na.x\n\nb.x\n").Data
      = ["a.x", "b.x"] ∧
    (Parse ";;Entries: 1/3\n;;Next Page: http://b/p2\na.x\n\nb.x\n").Data
      ≠ (Parse pageC8a).Data ++ (Parse pageC8b).Data :=
  ⟨by decide, by decide, by decide, by decide⟩

/-- C8 (amended): parsing the reconstructed output yields exactly the
accumulated data lines, provided each accumulated line contains no line
break, is fixed by whitespace trimming, is non-empty, does not begin with
the comment marker, and is fixed by ANSI stripping (all of which hold for
lines that did not carry ANSI escapes). -/
theorem C8_reparse (firstBody : String) (allData : List String)
    (h : ∀ d ∈ allData, ('\n' ∉ d.data) ∧ trimGo d.data = d.data ∧
      d.data ≠ [] ∧ d.data.head? ≠ some ';' ∧ ansiStrip d.data = d.data) :
    (Parse (reconstruct firstBody allData)).Data = allData :=
  reparse_data firstBody allData h

/-- Witness for C8 (amended): a concrete reconstruction re-parses to its
own accumulated data lines. -/
theorem C8_witness :
    (Parse (reconstruct ";;Entries: 2/2\nzzz.x" ["a.x", "b.x"])).Data
      = ["a.x", "b.x"] :=
  C8_reparse ";;Entries: 2/2\nzzz.x" ["a.x", "b.x"] (by decide)

/-- Associativity of string concatenation (via the underlying lists). -/
theorem strAppend_assoc (a b c : String) : a ++ b ++ c = a ++ (b ++ c) := by
  apply String.ext
  simp [List.append_assoc]

/-- C1: once the initial fetch of a query succeeds and its page has
`HasMore`, the operation's result is a success whatever the network does
afterwards; in particular if the continuation fetch of the first page's
next-page link fails, the result is the success built from the first
page's data lines alone, with no error propagated. -/
theorem C1_continuation_failure_absorbed (net : String → FetchOutcome)
    (baseURL : String) (limit : Int) (endpoint : String) (body : String)
    (hl : ¬ limit > 0)
    (hok : makeRequest (net (buildURL baseURL endpoint limit)) = .ok body)
    (hm : (Parse body).HasMore = true) :
    (∃ s, (queryWithPagination net baseURL limit endpoint).result = .ok s) ∧
    (∀ e, (Parse body).NextPageURL ≠ "" →
      makeRequest (net (Parse body).NextPageURL) = .error e →
      (queryWithPagination net baseURL limit endpoint).result =
        .ok (reconstruct body (Parse body).Data) ∧
      (queryWithPagination net baseURL limit endpoint).requests =
        [buildURL baseURL endpoint limit, (Parse body).NextPageURL]) := by
  rw [queryWP_more net baseURL limit endpoint body hl hok hm]
  constructor
  · exact ⟨_, rfl⟩
  · intro e hne herr
    rw [show (99 : Nat) = 98 + 1 from rfl, pagLoop_succ, if_neg hne, herr]
    exact ⟨rfl, rfl⟩

/-- Witness for C1: with `net1`, the first page succeeds with a link and
the continuation fetch fails by transport error; the operation returns
success carrying the first page's two data lines. -/
theorem C1_witness :
    (Parse pageC1).Data = ["a1.x", "a2.x"] ∧
    (queryWithPagination net1 "http://b" 0 "/sb/x").result =
      .ok (reconstruct pageC1 (Parse pageC1).Data) ∧
    (queryWithPagination net1 "http://b" 0 "/sb/x").requests =
      [buildURL "http://b" "/sb/x" 0, (Parse pageC1).NextPageURL] := by
  have h := (C1_continuation_failure_absorbed net1 "http://b" 0 "/sb/x" pageC1
    (by decide) rfl (by decide)).2
    "HTTP request failed: connection refused" (by decide) rfl
  exact ⟨by decide, h.1, h.2⟩

/-- C2 fails as stated: with a first page reading `;;Entries: 2/10`, two
data lines and no next-page link, the fetcher makes exactly one HTTP
request — it never re-requests the endpoint with the size parameter set to
the total count — and the final result carries only the first page's two
data lines, not ten. -/
theorem C2_counterexample :
    (Parse pageC2).HasMore = true ∧
    (Parse pageC2).NextPageURL = "" ∧
    (queryWithPagination cnet2 "http://b" 0 "/sb/x").requests
      = ["http://b/sb/x"] ∧
    (queryWithPagination cnet2 "http://b" 0 "/sb/x").requests.length ≠ 2 ∧
    okBody (queryWithPagination cnet2 "http://b" 0 "/sb/x")
      = some ";;Entries: 2/10\nd1.x\nd2.x\n" ∧
    (Parse ";;Entries: 2/10\nd1.x\nd2.x\n").Data.length ≠ 10 :=
  ⟨by decide, by decide, by decide, by decide, by decide, by decide⟩

/-- C2 (amended): the pagination loop advances only through the parsed
next-page link: when the first page carries a link, the second request
fetches exactly that link; when the first page carries no link, no further
request is made even though `HasMore` is true, and the result is rebuilt
from the first page's data lines alone. -/
theorem C2_pagination_link_only (net : String → FetchOutcome)
    (baseURL : String) (limit : Int) (endpoint : String) (body : String)
    (hl : ¬ limit > 0)
    (hok : makeRequest (net (buildURL baseURL endpoint limit)) = .ok body)
    (hm : (Parse body).HasMore = true) :
    ((Parse body).NextPageURL = "" →
      (queryWithPagination net baseURL limit endpoint).requests
        = [buildURL baseURL endpoint limit] ∧
      (queryWithPagination net baseURL limit endpoint).result
        = .ok (reconstruct body (Parse body).Data)) ∧
    ((Parse body).NextPageURL ≠ "" →
      ∃ rest, (queryWithPagination net baseURL limit endpoint).requests
        = buildURL baseURL endpoint limit :: (Parse body).NextPageURL :: rest) := by
  rw [queryWP_more net baseURL limit endpoint body hl hok hm]
  constructor
  · intro hnil
    rw [show (99 : Nat) = 98 + 1 from rfl, pagLoop_succ, if_pos hnil]
    exact ⟨rfl, rfl⟩
  · intro hne
    rw [show (99 : Nat) = 98 + 1 from rfl, pagLoop_succ, if_neg hne]
    cases hmr : makeRequest (net (Parse body).NextPageURL) with
    | error e => exact ⟨[], rfl⟩
    | ok b2 =>
      obtain ⟨t, ht⟩ := pagLoop_log_ext net 98
        ((Parse body).Data ++ (Parse b2).Data) (Parse b2).NextPageURL
        [(Parse body).NextPageURL]
      refine ⟨t, ?_⟩
      simp only [QueryResult.mk.injEq]
      simp [ht]

/-- Witness for C2 (amended): with `cnet2` the first page has no link, so
exactly one request is issued and the result carries only the first
page's data lines. -/
theorem C2_witness :
    (queryWithPagination cnet2 "http://b" 0 "/sb/x").requests
      = [buildURL "http://b" "/sb/x" 0] ∧
    (queryWithPagination cnet2 "http://b" 0 "/sb/x").result
      = .ok (reconstruct pageC2 (Parse pageC2).Data) :=
  (C2_pagination_link_only cnet2 "http://b" 0 "/sb/x" pageC2
    (by decide) rfl (by decide)).1 (by decide)

/-- C5: a failure of the initial request — error value, transport failure,
non-200 status or body-read failure — makes the whole operation fail with
that error and a single issued request, hence no data; in the non-200 case
the error message contains the decimal status code. -/
theorem C5_initial_failure (net : String → FetchOutcome) (baseURL : String)
    (limit : Int) (endpoint : String) :
    (∀ e, makeRequest (net (buildURL baseURL endpoint limit)) = .error e →
      (queryWithPagination net baseURL limit endpoint).result = .error e ∧
      (queryWithPagination net baseURL limit endpoint).requests
        = [buildURL baseURL endpoint limit]) ∧
    (∀ m, net (buildURL baseURL endpoint limit) = .transportErr m →
      (queryWithPagination net baseURL limit endpoint).result
        = .error ("HTTP request failed: " ++ m)) ∧
    (∀ code status readErr pbody,
      net (buildURL baseURL endpoint limit) = .httpResp code status readErr pbody →
      code ≠ 200 →
      ∃ pre post, (queryWithPagination net baseURL limit endpoint).result
        = .error (pre ++ toString code ++ post)) ∧
    (∀ status m pbody,
      net (buildURL baseURL endpoint limit) = .httpResp 200 status (some m) pbody →
      (queryWithPagination net baseURL limit endpoint).result
        = .error ("failed to read response: " ++ m)) := by
  refine ⟨?_, ?_, ?_, ?_⟩
  · intro e he
    rw [queryWP_err net baseURL limit endpoint e he]
    exact ⟨rfl, rfl⟩
  · intro m hm
    have he : makeRequest (net (buildURL baseURL endpoint limit))
        = .error ("HTTP request failed: " ++ m) := by
      rw [hm]; rfl
    rw [queryWP_err net baseURL limit endpoint _ he]
  · intro code status readErr pbody hresp hcode
    have he : makeRequest (net (buildURL baseURL endpoint limit))
        = .error ("HTTP " ++ toString code ++ ": " ++ status) := by
      rw [hresp]
      simp [makeRequest, hcode]
    rw [queryWP_err net baseURL limit endpoint _ he]
    exact ⟨"HTTP ", ": " ++ status, by rw [strAppend_assoc]⟩
  · intro status m pbody hresp
    have he : makeRequest (net (buildURL baseURL endpoint limit))
        = .error ("failed to read response: " ++ m) := by
      rw [hresp]; rfl
    rw [queryWP_err net baseURL limit endpoint _ he]

/-- Witness for C5: a 500 response on the first request yields an error
whose message contains the status code 500. -/
theorem C5_witness :
    (∃ pre post, (queryWithPagination net5 "http://b" 0 "/1.2.3.4").result
      = .error (pre ++ toString 500 ++ post)) ∧
    (queryWithPagination net5 "http://b" 0 "/1.2.3.4").result
      = .error "HTTP 500: 500 Internal Server Error" :=
  ⟨(C5_initial_failure net5 "http://b" 0 "/1.2.3.4").2.2.1
      500 "500 Internal Server Error" none "" rfl (by decide),
   ((C5_initial_failure net5 "http://b" 0 "/1.2.3.4").1
      "HTTP 500: 500 Internal Server Error" rfl).1⟩

/-- C6: with a positive caller-specified limit, exactly one request is
issued (pagination is never attempted whatever `HasMore` says) and a
successful first fetch returns the raw body unchanged. -/
theorem C6_limit_single_request (net : String → FetchOutcome)
    (baseURL : String) (limit : Int) (endpoint : String)
    (hl : limit > 0) :
    (queryWithPagination net baseURL limit endpoint).requests
      = [buildURL baseURL endpoint limit] ∧
    (∀ body, makeRequest (net (buildURL baseURL endpoint limit)) = .ok body →
      (queryWithPagination net baseURL limit endpoint).result = .ok body) := by
  constructor
  · cases hm : makeRequest (net (buildURL baseURL endpoint limit)) with
    | error e => rw [queryWP_err net baseURL limit endpoint e hm]
    | ok body => rw [queryWP_limit net baseURL limit endpoint body hl hm]
  · intro body hok
    rw [queryWP_limit net baseURL limit endpoint body hl hok]

/-- Witness for C6: with limit 5 and a first page that still reports more
results available, a single request is issued and the raw body comes back
unchanged. -/
theorem C6_witness :
    (Parse pageC2).HasMore = true ∧
    (queryWithPagination net6 "http://b" 5 "/sb/x").requests
      = ["http://b/sb/x?l=5"] ∧
    (queryWithPagination net6 "http://b" 5 "/sb/x").result = .ok pageC2 := by
  refine ⟨by decide, ?_, ?_⟩
  · rw [(C6_limit_single_request net6 "http://b" 5 "/sb/x" (by decide)).1]
    decide
  · exact (C6_limit_single_request net6 "http://b" 5 "/sb/x" (by decide)).2 pageC2 rfl

/-- C7: the whole operation issues at most 100 requests (the 100-page
safety cap), and once the first request succeeded the result is a success
— reaching the cap is not an error. -/
theorem C7_page_cap (net : String → FetchOutcome) (baseURL : String)
    (limit : Int) (endpoint : String) :
    (queryWithPagination net baseURL limit endpoint).requests.length ≤ 100 ∧
    (∀ body, makeRequest (net (buildURL baseURL endpoint limit)) = .ok body →
      ∃ s, (queryWithPagination net baseURL limit endpoint).result = .ok s) := by
  constructor
  · cases hm : makeRequest (net (buildURL baseURL endpoint limit)) with
    | error e => rw [queryWP_err net baseURL limit endpoint e hm]; simp
    | ok body =>
      by_cases hl : limit > 0
      · rw [queryWP_limit net baseURL limit endpoint body hl hm]; simp
      · cases hh : (Parse body).HasMore with
        | false => rw [queryWP_nomore net baseURL limit endpoint body hl hm hh]; simp
        | true =>
          rw [queryWP_more net baseURL limit endpoint body hl hm hh]
          have hlen := pagLoop_log_len net 99 (Parse body).Data
            (Parse body).NextPageURL []
          simp only [List.length_cons]
          simp at hlen
          omega
  · intro body hok
    by_cases hl : limit > 0
    · exact ⟨body, by rw [queryWP_limit net baseURL limit endpoint body hl hok]⟩
    · cases hh : (Parse body).HasMore with
      | false =>
        exact ⟨body, by rw [queryWP_nomore net baseURL limit endpoint body hl hok hh]⟩
      | true =>
        exact ⟨_, by rw [queryWP_more net baseURL limit endpoint body hl hok hh]⟩

/-- Witness for C7: under a network whose every page links onward forever,
the operation still terminates with at most 100 requests and a successful
result. -/
theorem C7_witness :
    (queryWithPagination net7 "http://b" 0 "/sb/x").requests.length ≤ 100 ∧
    (∃ s, (queryWithPagination net7 "http://b" 0 "/sb/x").result = .ok s) :=
  ⟨(C7_page_cap net7 "http://b" 0 "/sb/x").1,
   (C7_page_cap net7 "http://b" 0 "/sb/x").2 pageC7 rfl⟩

end Ipthc
